import Mathlib

/-!
# Verification of the expense tracker backend

A shallow embedding of the expense-record service (`app/models.py`,
`app/schemas.py`, `app/routers/expenses.py`) and proofs about its
read, aggregate and CRUD operations.

Modelling decisions:
* The record store is a `List Expense` in insertion (rowid/`id`) order;
  SQLAlchemy queries become list filters over it.
* SQL `ORDER BY` is modelled as a stable sort (`List.insertionSort`):
  rows are enumerated in rowid order and rows with equal sort keys keep
  that enumeration order.  The queries in the source specify no
  tie-break of their own.
* Monetary amounts (`Float` column / pydantic `float`) are modelled as
  `Rat`; every claim under study is about exact structural equalities
  (sums, grouping, sentinels), not rounding.
* The nullable `category` column is `Option String`; the non-nullable
  pydantic `category : str` field means API-created records always
  carry `some`.
-/

set_option maxRecDepth 40000

namespace ExpenseTracker

/-- Equality of handler outcomes is decidable (needed to evaluate the
operations on concrete stores). -/
instance {ε α : Type} [DecidableEq ε] [DecidableEq α] : DecidableEq (Except ε α) := fun x y =>
  match x, y with
  | Except.error a, Except.error b =>
      if h : a = b then isTrue (by rw [h])
      else isFalse (by intro hc; cases hc; exact h rfl)
  | Except.error _, Except.ok _ => isFalse (by intro hc; cases hc)
  | Except.ok _, Except.error _ => isFalse (by intro hc; cases hc)
  | Except.ok a, Except.ok b =>
      if h : a = b then isTrue (by rw [h])
      else isFalse (by intro hc; cases hc; exact h rfl)

/-- A calendar date (Python `datetime.date`): year, month, day. -/
structure Date where
  year : Nat
  month : Nat
  day : Nat
deriving DecidableEq, Repr

/-- Numeric key giving the chronological order of dates
(injective on real calendar dates: `month ≤ 12`, `day ≤ 31`). -/
def Date.key (d : Date) : Nat :=
  d.year * 10000 + d.month * 100 + d.day

/-- A stored expense row (`app/models.py`, class `Expense`).
`category` and `description` are nullable columns. -/
structure Expense where
  id : Nat
  title : String
  amount : Rat
  date : Date
  category : Option String
  description : Option String
deriving DecidableEq, Repr

/-- The record store: rows in insertion (rowid/`id`) order. -/
abbrev Store := List Expense

/-- A validated request body (`app/schemas.py`, `ExpenseCreate`):
`title`, `amount`, `date`, `category` are required, `description`
is optional. -/
structure ExpenseCreate where
  title : String
  amount : Rat
  date : Date
  category : String
  description : Option String
deriving DecidableEq, Repr

/-- A raw request body before pydantic validation: each field may be
absent (`none`). -/
structure ExpenseCreateInput where
  title : Option String
  amount : Option Rat
  date : Option Date
  category : Option String
  description : Option String
deriving DecidableEq, Repr

/-- Outcomes the handlers signal (`HTTPException` 404, and the
validation layer's 422). -/
inductive ApiError where
  | notFound
  | validationError (msg : String)
deriving DecidableEq, Repr

/-- Pydantic validation of `ExpenseCreate` (`app/schemas.py`):
`title`, `amount`, `date` and `category` are required fields (no
defaults), and `amount` carries `Field(gt=0)`. -/
def parseExpenseCreate (i : ExpenseCreateInput) : Except ApiError ExpenseCreate :=
  match i.title, i.amount, i.date, i.category with
  | some t, some a, some d, some c =>
      if 0 < a then Except.ok ⟨t, a, d, c, i.description⟩
      else Except.error (ApiError.validationError "amount must be greater than 0")
  | _, _, _, _ => Except.error (ApiError.validationError "field required")

/-- `create_expense` (`expenses.py`): validate the body, build a row
from its fields and append it; the store assigns the id.  The body
always supplies `date` (validation requires it), so the ORM column
default `date.today` is never consulted on this path. -/
def create_expense (nextId : Nat) (i : ExpenseCreateInput) (db : Store) :
    Except ApiError (Expense × Store) :=
  match parseExpenseCreate i with
  | Except.error e => Except.error e
  | Except.ok c =>
      let row : Expense := ⟨nextId, c.title, c.amount, c.date, some c.category, c.description⟩
      Except.ok (row, db ++ [row])

/-- `read_expense` (`expenses.py`): first row with the given id, or 404. -/
def read_expense (eid : Nat) (db : Store) : Except ApiError Expense :=
  match db.find? (fun e => e.id == eid) with
  | none => Except.error ApiError.notFound
  | some e => Except.ok e

/-- The `setattr` loop of `update_expense`: overwrite every field in
`expense.model_dump()` — all fields but `id`. -/
def setFields (x : ExpenseCreate) (e : Expense) : Expense :=
  { e with title := x.title, amount := x.amount, date := x.date,
           category := some x.category, description := x.description }

/-- `update_expense` (`expenses.py`): find the first row with the id
(404 if none), overwrite all its non-id fields, return the refreshed
row and the new store. -/
def update_expense (eid : Nat) (x : ExpenseCreate) : Store → Except ApiError (Expense × Store)
  | [] => Except.error ApiError.notFound
  | e :: rest =>
      if e.id == eid then
        Except.ok (setFields x e, setFields x e :: rest)
      else
        match update_expense eid x rest with
        | Except.error err => Except.error err
        | Except.ok (u, rest') => Except.ok (u, e :: rest')

/-- `delete_expense` (`expenses.py`): find the first row with the id
(404 if none), remove it, report success. -/
def delete_expense (eid : Nat) : Store → Except ApiError (String × Store)
  | [] => Except.error ApiError.notFound
  | e :: rest =>
      if e.id == eid then
        Except.ok ("Expense deleted successfully", rest)
      else
        match delete_expense eid rest with
        | Except.error err => Except.error err
        | Except.ok (m, rest') => Except.ok (m, e :: rest')

/-! ## Filter builder

`read_expenses` builds its query as `if category: ...; if start_date: ...;
if end_date: ...`.  Python truthiness means an empty-string `category`
skips the category clause, exactly like `None`. -/

/-- The `if category: query.filter(Expense.category == category)` step. -/
def applyCategoryFilter (cat : Option String) (db : List Expense) : List Expense :=
  match cat with
  | none => db
  | some c => if c = "" then db else db.filter (fun e => e.category == some c)

/-- The `if start_date: query.filter(Expense.date >= start_date)` step. -/
def applyStartFilter (sd : Option Date) (db : List Expense) : List Expense :=
  match sd with
  | none => db
  | some d => db.filter (fun e => d.key ≤ e.date.key)

/-- The `if end_date: query.filter(Expense.date <= end_date)` step. -/
def applyEndFilter (ed : Option Date) (db : List Expense) : List Expense :=
  match ed with
  | none => db
  | some d => db.filter (fun e => e.date.key ≤ d.key)

/-- The date part of the filter builder's predicate: inside the
inclusive range, with an absent bound unconstrained. -/
def dateInRange (sd ed : Option Date) (e : Expense) : Bool :=
  (match sd with
   | none => true
   | some d => decide (d.key ≤ e.date.key)) &&
  (match ed with
   | none => true
   | some d => decide (e.date.key ≤ d.key))

/-- The full filter-builder predicate, as `read_expenses` applies it:
an optional exact-match category clause (skipped for `none` and for the
falsy empty string) and the optional inclusive date range. -/
def matchesFilter (cat : Option String) (sd ed : Option Date) (e : Expense) : Bool :=
  (match cat with
   | none => true
   | some c => (c = "") || (e.category == some c)) &&
  dateInRange sd ed e

/-! ## Sort relations

Each `ORDER BY ... DESC` becomes a stable `insertionSort` under the
corresponding "greater or equal on the sort key" relation. -/

/-- `ORDER BY date DESC`: earlier rows have the later (or equal) date. -/
def dateDesc (a b : Expense) : Prop := b.date.key ≤ a.date.key

instance : DecidableRel dateDesc := fun a b =>
  inferInstanceAs (Decidable (b.date.key ≤ a.date.key))

instance : IsTotal Expense dateDesc := ⟨fun a b => Nat.le_total b.date.key a.date.key⟩

instance : IsTrans Expense dateDesc :=
  ⟨fun _ _ _ hab hbc => Nat.le_trans hbc hab⟩

/-- `ORDER BY SUM(amount) DESC` on `(category, total)` pairs. -/
def totalDesc (a b : Option String × Rat) : Prop := b.2 ≤ a.2

instance : DecidableRel totalDesc := fun a b => inferInstanceAs (Decidable (b.2 ≤ a.2))

instance : IsTotal (Option String × Rat) totalDesc := ⟨fun a b => le_total b.2 a.2⟩

instance : IsTrans (Option String × Rat) totalDesc :=
  ⟨fun _ _ _ hab hbc => le_trans hbc hab⟩

/-- `ORDER BY COUNT(id) DESC` on `(category, count)` pairs. -/
def countDesc (a b : Option String × Nat) : Prop := b.2 ≤ a.2

instance : DecidableRel countDesc := fun a b =>
  inferInstanceAs (Decidable (b.2 ≤ a.2))

instance : IsTotal (Option String × Nat) countDesc := ⟨fun a b => Nat.le_total b.2 a.2⟩

instance : IsTrans (Option String × Nat) countDesc :=
  ⟨fun _ _ _ hab hbc => Nat.le_trans hbc hab⟩

/-- `ORDER BY year DESC, month DESC` on `(year, month, total)` rows. -/
def ymDesc (a b : Nat × Nat × Rat) : Prop :=
  b.1 < a.1 ∨ (b.1 = a.1 ∧ b.2.1 ≤ a.2.1)

instance : DecidableRel ymDesc := fun a b =>
  inferInstanceAs (Decidable (b.1 < a.1 ∨ (b.1 = a.1 ∧ b.2.1 ≤ a.2.1)))

instance : IsTotal (Nat × Nat × Rat) ymDesc :=
  ⟨fun a b => by
    rcases Nat.lt_trichotomy b.1 a.1 with h | h | h
    · exact Or.inl (Or.inl h)
    · rcases Nat.le_total b.2.1 a.2.1 with hm | hm
      · exact Or.inl (Or.inr ⟨h, hm⟩)
      · exact Or.inr (Or.inr ⟨h.symm, hm⟩)
    · exact Or.inr (Or.inl h)⟩

instance : IsTrans (Nat × Nat × Rat) ymDesc :=
  ⟨fun a b c hab hbc => by
    rcases hab with h1 | ⟨h1, m1⟩ <;> rcases hbc with h2 | ⟨h2, m2⟩
    · exact Or.inl (Nat.lt_trans h2 h1)
    · exact Or.inl (h2 ▸ h1)
    · exact Or.inl (h1 ▸ h2)
    · exact Or.inr ⟨h2.trans h1, Nat.le_trans m2 m1⟩⟩

/-! ## Read and aggregate operations -/

/-- `read_expenses` (`expenses.py`): apply the filter clauses, order by
date descending, then `offset(skip).limit(limit)`. -/
def read_expenses (skip limit : Nat) (cat : Option String) (sd ed : Option Date)
    (db : Store) : List Expense :=
  ((((applyEndFilter ed (applyStartFilter sd (applyCategoryFilter cat db))).insertionSort
      dateDesc).drop skip).take limit)

/-- Sum of the `amount` column over a row list (SQL `SUM(amount)`). -/
def sumAmount (rows : List Expense) : Rat := (rows.map (fun e => e.amount)).sum

/-- Maximum of the `amount` column (SQL `MAX(amount)`; `0` stands for
the `NULL` of an empty row set, which the caller special-cases). -/
def maxAmount : List Expense → Rat
  | [] => 0
  | e :: rest => rest.foldl (fun acc x => max acc x.amount) e.amount

/-- `GROUP BY category` with `COUNT(id)`: one `(category, count)` pair
per distinct category value of the rows. -/
def categoryCounts (rows : List Expense) : List (Option String × Nat) :=
  ((rows.map (fun e => e.category)).dedup).map
    (fun c => (c, (rows.filter (fun e => e.category == c)).length))

/-- The most-common-category subquery of `get_expense_statistics`:
group by category, order by count descending, take the first row;
`"None"` when there are no rows at all. -/
def mostCommonCategory (rows : List Expense) : Option String :=
  match ((categoryCounts rows).insertionSort countDesc).head? with
  | some p => p.1
  | none => some "None"

/-- Statistics record (`app/schemas.py`, `ExpenseStatistics`).  The
`most_common_category` field is `Option String` because the grouped
category column is nullable; the handler's sentinel is the literal
string `"None"`. -/
structure ExpenseStatistics where
  total_expenses : Rat
  average_expense : Rat
  highest_expense : Rat
  most_common_category : Option String
deriving DecidableEq, Repr

/-- The aggregate body of `get_expense_statistics` over an already
filtered row set: `SUM`/`AVG`/`MAX` plus the most common category,
with the empty set (SQL `SUM = NULL`) special-cased to the zero/"None"
sentinels. -/
def statsOf (rows : List Expense) : ExpenseStatistics :=
  if rows.isEmpty then ⟨0, 0, 0, some "None"⟩
  else ⟨sumAmount rows, sumAmount rows / (rows.length : Rat), maxAmount rows,
        mostCommonCategory rows⟩

/-- `get_expense_statistics` (`expenses.py`): optional date-range
clauses (no category parameter exists on this endpoint), then the
aggregates. -/
def get_expense_statistics (sd ed : Option Date) (db : Store) : ExpenseStatistics :=
  statsOf (applyEndFilter ed (applyStartFilter sd db))

/-- `GROUP BY category` with `SUM(amount)`: one `(category, total)`
pair per distinct category value of the rows. -/
def categoryGroups (rows : List Expense) : List (Option String × Rat) :=
  ((rows.map (fun e => e.category)).dedup).map
    (fun c => (c, sumAmount (rows.filter (fun e => e.category == c))))

/-- `get_spending_by_category` (`expenses.py`): filter
`category IS NOT NULL`, then the optional date-range clauses, group by
category summing `amount`, order by the total descending. -/
def get_spending_by_category (sd ed : Option Date) (db : Store) :
    List (Option String × Rat) :=
  (categoryGroups (applyEndFilter ed (applyStartFilter sd
    (db.filter (fun e => !(e.category == none)))))).insertionSort totalDesc

/-- `GROUP BY year, month` with `SUM(amount)`: one `(year, month, total)`
row per distinct (year, month) of the rows' dates. -/
def monthlyGroups (rows : List Expense) : List (Nat × Nat × Rat) :=
  ((rows.map (fun e => (e.date.year, e.date.month))).dedup).map
    (fun ym => (ym.1, ym.2,
      sumAmount (rows.filter (fun e => e.date.year == ym.1 && e.date.month == ym.2))))

/-- `get_monthly_summary` (`expenses.py`): `if year:` — the year clause
is applied only when the parameter is present AND non-zero (Python
truthiness) — then group by (year, month) and order by year descending,
month descending. -/
def get_monthly_summary (year : Option Int) (db : Store) : List (Nat × Nat × Rat) :=
  (monthlyGroups
    (match year with
     | none => db
     | some y => if y = 0 then db
                 else db.filter (fun e => (e.date.year : Int) == y))).insertionSort ymDesc

/-- The year restriction of the monthly summary as a single filter:
`none` leaves the store unrestricted; `some y` keeps the records dated
in year `y`. -/
def yearRestricted (year : Option Int) (db : Store) : List Expense :=
  match year with
  | none => db
  | some y => db.filter (fun e => (e.date.year : Int) == y)

/-! ## Helper lemmas -/

/-- Composing two filter clauses is one filter by the conjunction, in
application order. -/
theorem filter_filter_left {α : Type} (p q : α → Bool) (l : List α) :
    (l.filter p).filter q = l.filter (fun a => p a && q a) := by
  rw [List.filter_filter]
  exact List.filter_congr (fun a _ => Bool.and_comm _ _)

/-- Stability of `orderedInsert`: inserting `x` below every element it
ties with keeps the relation `q` that `x` had to all of them. -/
theorem pairwise_orderedInsert_stable {α : Type} (r : α → α → Prop) [DecidableRel r]
    (q : α → α → Prop) (x : α) :
    ∀ s : List α, s.Pairwise (fun a b => r b a → q a b) → (∀ y ∈ s, q x y) →
      (List.orderedInsert r x s).Pairwise (fun a b => r b a → q a b)
  | [], _, _ => List.pairwise_singleton _ _
  | b :: s', hp, hq => by
    rw [List.orderedInsert]
    by_cases h : r x b
    · rw [if_pos h]
      refine List.pairwise_cons.mpr ⟨?_, hp⟩
      intro y hy _
      exact hq y hy
    · rw [if_neg h]
      refine List.pairwise_cons.mpr ⟨?_, ?_⟩
      · intro y hy
        rcases (List.mem_orderedInsert r).mp hy with rfl | hy'
        · intro hxb
          exact absurd hxb h
        · exact (List.pairwise_cons.mp hp).1 y hy'
      · exact pairwise_orderedInsert_stable r q x s' (List.pairwise_cons.mp hp).2
          (fun y hy => hq y (List.mem_cons_of_mem b hy))

/-- Stability of `insertionSort`: if the input is pairwise `q`, then in
the output any pair that the sort relation could have placed either way
(`r b a` holds for a pair `a` before `b`) is still in input order. -/
theorem pairwise_insertionSort_stable {α : Type} (r : α → α → Prop) [DecidableRel r]
    (q : α → α → Prop) :
    ∀ l : List α, l.Pairwise q →
      (l.insertionSort r).Pairwise (fun a b => r b a → q a b)
  | [], _ => List.Pairwise.nil
  | x :: t, hp => by
    rw [List.insertionSort]
    refine pairwise_orderedInsert_stable r q x _
      (pairwise_insertionSort_stable r q t (List.pairwise_cons.mp hp).2) ?_
    intro y hy
    exact (List.pairwise_cons.mp hp).1 y ((List.mem_insertionSort r).mp hy)

/-- The category clause of `read_expenses` as a single filter. -/
theorem applyCategoryFilter_eq (cat : Option String) (db : List Expense) :
    applyCategoryFilter cat db =
      db.filter (fun e =>
        match cat with
        | none => true
        | some c => decide (c = "") || (e.category == some c)) := by
  cases cat with
  | none => simp [applyCategoryFilter]
  | some c =>
      by_cases h : c = ""
      · simp [applyCategoryFilter, h]
      · simp only [applyCategoryFilter, if_neg h]
        refine (List.filter_congr ?_).symm ▸ rfl
        intro e _
        simp [h]

/-- The two date clauses together are one filter by `dateInRange`. -/
theorem applyDateFilters_eq (sd ed : Option Date) (db : List Expense) :
    applyEndFilter ed (applyStartFilter sd db) = db.filter (dateInRange sd ed) := by
  have hcongr : db.filter (dateInRange sd ed) =
      db.filter (fun e =>
        (match sd with
         | none => true
         | some d => decide (d.key ≤ e.date.key)) &&
        (match ed with
         | none => true
         | some d => decide (e.date.key ≤ d.key))) :=
    List.filter_congr (fun e _ => rfl)
  rw [hcongr]
  cases sd <;> cases ed
  all_goals simp [applyStartFilter, applyEndFilter, filter_filter_left]
  all_goals exact List.filter_congr (fun e _ => Bool.and_comm _ _)

/-- All three clauses of `read_expenses` are one filter by the
filter-builder predicate. -/
theorem applyAllFilters_eq (cat : Option String) (sd ed : Option Date) (db : List Expense) :
    applyEndFilter ed (applyStartFilter sd (applyCategoryFilter cat db)) =
      db.filter (matchesFilter cat sd ed) := by
  rw [applyDateFilters_eq, applyCategoryFilter_eq, filter_filter_left]
  exact List.filter_congr (fun e _ => by cases cat <;> simp [matchesFilter])

/-- Membership in `categoryGroups`: the key is a distinct category of
the rows and the value is the sum of that category's amounts. -/
theorem mem_categoryGroups {rows : List Expense} {p : Option String × Rat}
    (hp : p ∈ categoryGroups rows) :
    p.1 ∈ (rows.map (fun e => e.category)).dedup ∧
    p.2 = sumAmount (rows.filter (fun e => e.category == p.1)) := by
  rcases List.mem_map.mp hp with ⟨c, hc, rfl⟩
  exact ⟨hc, rfl⟩

/-- The keys of `categoryGroups` are exactly the deduplicated category
values of the rows. -/
theorem categoryGroups_map_fst (rows : List Expense) :
    (categoryGroups rows).map Prod.fst = (rows.map (fun e => e.category)).dedup := by
  simp only [categoryGroups, List.map_map, Function.comp_def]
  exact List.map_id _

/-- Membership in `monthlyGroups`: the key is a distinct (year, month)
of the rows and the value is the sum of that month's amounts. -/
theorem mem_monthlyGroups {rows : List Expense} {g : Nat × Nat × Rat}
    (hg : g ∈ monthlyGroups rows) :
    (g.1, g.2.1) ∈ (rows.map (fun e => (e.date.year, e.date.month))).dedup ∧
    g.2.2 = sumAmount (rows.filter
      (fun e => e.date.year == g.1 && e.date.month == g.2.1)) := by
  rcases List.mem_map.mp hg with ⟨ym, hym, rfl⟩
  exact ⟨hym, rfl⟩

/-- The keys of `monthlyGroups` are exactly the deduplicated
(year, month) values of the rows. -/
theorem monthlyGroups_map_key (rows : List Expense) :
    (monthlyGroups rows).map (fun g => (g.1, g.2.1)) =
      (rows.map (fun e => (e.date.year, e.date.month))).dedup := by
  simp only [monthlyGroups, List.map_map, Function.comp_def, Prod.mk.eta]
  exact List.map_id _

/-- A row with a different id does not affect a lookup. -/
theorem read_expense_cons_ne {eid : Nat} {e : Expense} (st : Store) (he : e.id ≠ eid) :
    read_expense eid (e :: st) = read_expense eid st := by
  unfold read_expense
  rw [List.find?_cons_of_neg _ (by simpa using he)]

/-- `read_expense` signals not-found exactly when no row has the id. -/
theorem read_expense_error_iff (eid : Nat) (db : Store) :
    read_expense eid db = Except.error ApiError.notFound ↔ ∀ e ∈ db, e.id ≠ eid := by
  unfold read_expense
  cases hfind : db.find? (fun e => e.id == eid) with
  | none =>
      refine iff_of_true rfl ?_
      intro e he
      simpa using List.find?_eq_none.mp hfind e he
  | some e =>
      have hmem := List.mem_of_find?_eq_some hfind
      have hp : e.id = eid := by simpa using List.find?_some hfind
      exact iff_of_false (fun hc => Except.noConfusion hc) (fun hall => (hall e hmem) hp)

/-- `update_expense` only ever signals not-found. -/
theorem update_expense_error_eq (eid : Nat) (x : ExpenseCreate) :
    ∀ (db : Store) (err : ApiError),
      update_expense eid x db = Except.error err → err = ApiError.notFound
  | [], err, h => by
      unfold update_expense at h
      injection h with h2
      exact h2.symm
  | e :: rest, err, h => by
      unfold update_expense at h
      by_cases he : (e.id == eid) = true
      · rw [if_pos he] at h
        exact Except.noConfusion h
      · rw [if_neg he] at h
        cases hu : update_expense eid x rest with
        | error err2 =>
            rw [hu] at h
            injection h with h2
            rw [← h2]
            exact update_expense_error_eq eid x rest err2 hu
        | ok p =>
            rw [hu] at h
            cases p
            exact Except.noConfusion h

/-- `update_expense` signals not-found exactly when no row has the id. -/
theorem update_expense_error_iff (eid : Nat) (x : ExpenseCreate) :
    ∀ db : Store,
      (update_expense eid x db = Except.error ApiError.notFound ↔ ∀ e ∈ db, e.id ≠ eid)
  | [] => by
      simp [update_expense]
  | e :: rest => by
      have hrec := update_expense_error_iff eid x rest
      by_cases he : e.id = eid
      · constructor
        · intro hc
          exfalso
          unfold update_expense at hc
          rw [if_pos (beq_iff_eq.mpr he)] at hc
          exact Except.noConfusion hc
        · intro hall
          exact absurd he (hall e (List.mem_cons_self e rest))
      · constructor
        · intro hc
          unfold update_expense at hc
          rw [if_neg (by simpa using he)] at hc
          intro e' he'
          rcases List.mem_cons.mp he' with rfl | hmem
          · exact he
          · cases hu : update_expense eid x rest with
            | error err =>
                have herr : err = ApiError.notFound :=
                  update_expense_error_eq eid x rest err hu
                subst herr
                exact (hrec.mp hu) e' hmem
            | ok p =>
                rw [hu] at hc
                cases p
                exact Except.noConfusion hc
        · intro hall
          unfold update_expense
          rw [if_neg (by simpa using he)]
          have hrest : update_expense eid x rest = Except.error ApiError.notFound :=
            hrec.mpr (fun e' he' => hall e' (List.mem_cons_of_mem e he'))
          rw [hrest]

/-- `delete_expense` only ever signals not-found. -/
theorem delete_expense_error_eq (eid : Nat) :
    ∀ (db : Store) (err : ApiError),
      delete_expense eid db = Except.error err → err = ApiError.notFound
  | [], err, h => by
      unfold delete_expense at h
      injection h with h2
      exact h2.symm
  | e :: rest, err, h => by
      unfold delete_expense at h
      by_cases he : (e.id == eid) = true
      · rw [if_pos he] at h
        exact Except.noConfusion h
      · rw [if_neg he] at h
        cases hu : delete_expense eid rest with
        | error err2 =>
            rw [hu] at h
            injection h with h2
            rw [← h2]
            exact delete_expense_error_eq eid rest err2 hu
        | ok p =>
            rw [hu] at h
            cases p
            exact Except.noConfusion h

/-- `delete_expense` signals not-found exactly when no row has the id. -/
theorem delete_expense_error_iff (eid : Nat) :
    ∀ db : Store,
      (delete_expense eid db = Except.error ApiError.notFound ↔ ∀ e ∈ db, e.id ≠ eid)
  | [] => by
      simp [delete_expense]
  | e :: rest => by
      have hrec := delete_expense_error_iff eid rest
      by_cases he : e.id = eid
      · constructor
        · intro hc
          exfalso
          unfold delete_expense at hc
          rw [if_pos (beq_iff_eq.mpr he)] at hc
          exact Except.noConfusion hc
        · intro hall
          exact absurd he (hall e (List.mem_cons_self e rest))
      · constructor
        · intro hc
          unfold delete_expense at hc
          rw [if_neg (by simpa using he)] at hc
          intro e' he'
          rcases List.mem_cons.mp he' with rfl | hmem
          · exact he
          · cases hu : delete_expense eid rest with
            | error err =>
                have herr : err = ApiError.notFound :=
                  delete_expense_error_eq eid rest err hu
                subst herr
                exact (hrec.mp hu) e' hmem
            | ok p =>
                rw [hu] at hc
                cases p
                exact Except.noConfusion hc
        · intro hall
          unfold delete_expense
          rw [if_neg (by simpa using he)]
          have hrest : delete_expense eid rest = Except.error ApiError.notFound :=
            hrec.mpr (fun e' he' => hall e' (List.mem_cons_of_mem e he'))
          rw [hrest]

/-- After a successful delete of `eid` from a store with distinct ids,
looking up `eid` signals not-found. -/
theorem delete_then_get_aux (eid : Nat) :
    ∀ db : Store, (db.map (fun e => e.id)).Nodup →
      ∀ msg st, delete_expense eid db = Except.ok (msg, st) →
        read_expense eid st = Except.error ApiError.notFound
  | [], _, msg, st, h => by
      unfold delete_expense at h
      exact Except.noConfusion h
  | e :: rest, hnodup, msg, st, h => by
      rw [List.map_cons, List.nodup_cons] at hnodup
      by_cases he : e.id = eid
      · unfold delete_expense at h
        rw [if_pos (beq_iff_eq.mpr he)] at h
        have hst : st = rest := by
          injection h with h2
          injection h2 with hm hs
          exact hs.symm
        subst hst
        rw [read_expense_error_iff]
        intro e' he' heq
        exact hnodup.1 (List.mem_map.mpr ⟨e', he', heq.trans he.symm⟩)
      · unfold delete_expense at h
        rw [if_neg (by simpa using he)] at h
        cases hd : delete_expense eid rest with
        | error err =>
            rw [hd] at h
            exact Except.noConfusion h
        | ok p =>
            rw [hd] at h
            cases p with
            | mk m2 rest2 =>
                have hst : st = e :: rest2 := by
                  injection h with h2
                  injection h2 with hm hs
                  exact hs.symm
                subst hst
                rw [read_expense_cons_ne _ he]
                exact delete_then_get_aux eid rest hnodup.2 m2 rest2 hd

/-! ## Claim theorems -/

/-- C1: for every date-range filter whose filtered record set is empty,
`get_expense_statistics` returns exactly total `0.0`, average `0.0`,
highest `0.0` and most_common_category `"None"` (a sentinel string),
with no division by zero and no error (the operation is total). -/
theorem stats_empty_filtered_set (sd ed : Option Date) (db : Store)
    (h : db.filter (dateInRange sd ed) = []) :
    get_expense_statistics sd ed db = ⟨0, 0, 0, some "None"⟩ := by
  unfold get_expense_statistics
  rw [applyDateFilters_eq, h]
  rfl

/-- Witness for C1: a nonempty store whose date filter empties the set
still yields the zero/"None" sentinel statistics. -/
theorem stats_empty_filtered_set_witness :
    (([⟨1, "a", 10, ⟨2024, 1, 1⟩, some "Food", none⟩] : Store).filter
        (dateInRange (some ⟨2025, 1, 1⟩) none) = []) ∧
    get_expense_statistics (some ⟨2025, 1, 1⟩) none
        [⟨1, "a", 10, ⟨2024, 1, 1⟩, some "Food", none⟩] = ⟨0, 0, 0, some "None"⟩ :=
  ⟨by with_unfolding_all decide,
   stats_empty_filtered_set (some ⟨2025, 1, 1⟩) none _ (by with_unfolding_all decide)⟩

/-- C2 counterexample: the aggregate endpoints do not apply the full
filter-builder predicate.  `get_expense_statistics` accepts no category
constraint: on a two-category store its result differs from the
aggregate over the records matching the predicate with category
`"Food"`.  `get_monthly_summary` accepts no date range: its result
differs from the rollup over the records matching the predicate with
`start_date = 2024-01-02`. -/
theorem aggregate_ops_ignore_filter_dimensions :
    get_expense_statistics none none
        [⟨1, "a", 10, ⟨2024, 1, 1⟩, some "Food", none⟩,
         ⟨2, "b", 20, ⟨2024, 1, 2⟩, some "Travel", none⟩] ≠
      statsOf (List.filter (matchesFilter (some "Food") none none)
        [⟨1, "a", 10, ⟨2024, 1, 1⟩, some "Food", none⟩,
         ⟨2, "b", 20, ⟨2024, 1, 2⟩, some "Travel", none⟩]) ∧
    get_monthly_summary none
        [⟨1, "a", 10, ⟨2024, 1, 1⟩, some "Food", none⟩,
         ⟨2, "b", 20, ⟨2024, 1, 2⟩, some "Travel", none⟩] ≠
      (monthlyGroups (List.filter (matchesFilter none (some ⟨2024, 1, 2⟩) none)
        [⟨1, "a", 10, ⟨2024, 1, 1⟩, some "Food", none⟩,
         ⟨2, "b", 20, ⟨2024, 1, 2⟩, some "Travel", none⟩])).insertionSort ymDesc := by
  constructor
  · intro h
    exact absurd h (by with_unfolding_all decide)
  · intro h
    exact absurd h (by with_unfolding_all decide)

/-- C2 amended: each read/aggregate operation is a single pass of one
predicate over the store followed by its aggregation — but the
operations do not share the full filter-builder predicate:
`read_expenses` applies category and date range, the statistics and
by-category endpoints apply only the date range (by-category also drops
null categories), and the monthly summary applies only its year
restriction. -/
theorem aggregate_ops_filter_application (cat : Option String) (sd ed : Option Date)
    (skip limit : Nat) (year : Int) (db : Store) :
    read_expenses skip limit cat sd ed db =
      (((db.filter (matchesFilter cat sd ed)).insertionSort dateDesc).drop skip).take limit ∧
    get_expense_statistics sd ed db = statsOf (db.filter (dateInRange sd ed)) ∧
    get_spending_by_category sd ed db =
      (categoryGroups (db.filter (fun e =>
        (!(e.category == none)) && dateInRange sd ed e))).insertionSort totalDesc ∧
    get_monthly_summary (some year) db =
      (monthlyGroups (if year = 0 then db
        else db.filter (fun e => (e.date.year : Int) == year))).insertionSort ymDesc := by
  refine ⟨?_, ?_, ?_, rfl⟩
  · unfold read_expenses
    rw [applyAllFilters_eq]
  · unfold get_expense_statistics
    rw [applyDateFilters_eq]
  · unfold get_spending_by_category
    rw [applyDateFilters_eq, filter_filter_left]

/-- C3 counterexample: a record whose category is the empty string is
NOT excluded from the by-category report — `category.isnot(None)` only
drops SQL NULL, and `""` is not NULL.  The report for a store holding
one empty-string-category record contains an entry for `""`. -/
theorem by_category_includes_empty_string :
    ¬ (∀ p ∈ get_spending_by_category none none
          [⟨1, "t", 5, ⟨2024, 1, 1⟩, some "", none⟩], p.1 ≠ some "") := by
  intro h
  exact absurd h (by with_unfolding_all decide)

/-- C3 amended: for every store state and optional date range, the
by-category report has one entry per distinct NON-NULL category among
the date-filtered records (empty-string categories are kept and form
their own group), each entry's total is the sum of `amount` over that
category's filtered records, and the entries are sorted in descending
order of total. -/
theorem by_category_groups_sorted (sd ed : Option Date) (db : Store) :
    List.Perm ((get_spending_by_category sd ed db).map Prod.fst)
      (((db.filter (fun e => (!(e.category == none)) && dateInRange sd ed e)).map
        (fun e => e.category)).dedup) ∧
    ((get_spending_by_category sd ed db).map Prod.fst).Nodup ∧
    (∀ p ∈ get_spending_by_category sd ed db,
      p.1 ≠ none ∧
      p.2 = sumAmount ((db.filter (fun e =>
        (!(e.category == none)) && dateInRange sd ed e)).filter
          (fun e => e.category == p.1))) ∧
    (get_spending_by_category sd ed db).Pairwise (fun a b => b.2 ≤ a.2) := by
  have hrows : applyEndFilter ed (applyStartFilter sd
      (db.filter (fun e => !(e.category == none)))) =
      db.filter (fun e => (!(e.category == none)) && dateInRange sd ed e) := by
    rw [applyDateFilters_eq, filter_filter_left]
  have hdef : get_spending_by_category sd ed db =
      (categoryGroups (db.filter (fun e =>
        (!(e.category == none)) && dateInRange sd ed e))).insertionSort totalDesc := by
    unfold get_spending_by_category
    rw [hrows]
  set rows := db.filter (fun e => (!(e.category == none)) && dateInRange sd ed e) with hrowsdef
  have hperm : List.Perm (get_spending_by_category sd ed db) (categoryGroups rows) := by
    rw [hdef]
    exact List.perm_insertionSort totalDesc (categoryGroups rows)
  have hkeys : List.Perm ((get_spending_by_category sd ed db).map Prod.fst)
      ((rows.map (fun e => e.category)).dedup) := by
    have := hperm.map Prod.fst
    rwa [categoryGroups_map_fst] at this
  refine ⟨hkeys, ?_, ?_, ?_⟩
  · exact hkeys.nodup_iff.mpr (List.nodup_dedup _)
  · intro p hp
    have hpg : p ∈ categoryGroups rows := hperm.mem_iff.mp hp
    rcases mem_categoryGroups hpg with ⟨hkey, hval⟩
    refine ⟨?_, hval⟩
    rcases List.mem_map.mp (List.mem_dedup.mp hkey) with ⟨e, he, hcat⟩
    have hpred := (List.mem_filter.mp he).2
    intro hnone
    rw [hcat, hnone] at hpred
    simp at hpred
  · rw [hdef]
    exact List.sorted_insertionSort totalDesc (categoryGroups rows)

/-- C4 counterexample: the list query orders by `date DESC` only — no
tie-break clause exists — and in the embedding's stable model two
records with equal dates come back in store (id-ascending) order, not
id-descending as the claim states: the result is `[id 1, id 2]`, not
`[id 2, id 1]`. -/
theorem list_ties_not_id_descending :
    read_expenses 0 100 none none none
        [⟨1, "a", 10, ⟨2024, 1, 1⟩, some "Food", none⟩,
         ⟨2, "b", 20, ⟨2024, 1, 1⟩, some "Travel", none⟩] =
      [⟨1, "a", 10, ⟨2024, 1, 1⟩, some "Food", none⟩,
       ⟨2, "b", 20, ⟨2024, 1, 1⟩, some "Travel", none⟩] ∧
    read_expenses 0 100 none none none
        [⟨1, "a", 10, ⟨2024, 1, 1⟩, some "Food", none⟩,
         ⟨2, "b", 20, ⟨2024, 1, 1⟩, some "Travel", none⟩] ≠
      [⟨2, "b", 20, ⟨2024, 1, 1⟩, some "Travel", none⟩,
       ⟨1, "a", 10, ⟨2024, 1, 1⟩, some "Food", none⟩] := by
  constructor
  · with_unfolding_all decide
  · intro h
    exact absurd h (by with_unfolding_all decide)

/-- C4 amended: for every store whose rows are in ascending-id order,
every filter and non-negative skip/limit, the list operation returns
the matching records ordered by date descending — records of equal
date staying in store (insertion) order, id ASCENDING, since the query
specifies no tie-break and the embedding models the sort as stable —
then offset by skip and capped at limit entries. -/
theorem list_order_pagination (cat : Option String) (sd ed : Option Date)
    (skip limit : Nat) (db : Store)
    (hids : db.Pairwise (fun a b => a.id < b.id)) :
    read_expenses skip limit cat sd ed db =
      (((db.filter (matchesFilter cat sd ed)).insertionSort dateDesc).drop skip).take limit ∧
    List.Perm ((db.filter (matchesFilter cat sd ed)).insertionSort dateDesc)
      (db.filter (matchesFilter cat sd ed)) ∧
    ((db.filter (matchesFilter cat sd ed)).insertionSort dateDesc).Sorted dateDesc ∧
    ((db.filter (matchesFilter cat sd ed)).insertionSort dateDesc).Pairwise
      (fun a b => a.date.key = b.date.key → a.id < b.id) ∧
    (read_expenses skip limit cat sd ed db).length ≤ limit := by
  have heq : read_expenses skip limit cat sd ed db =
      (((db.filter (matchesFilter cat sd ed)).insertionSort dateDesc).drop skip).take limit := by
    unfold read_expenses
    rw [applyAllFilters_eq]
  refine ⟨heq, List.perm_insertionSort dateDesc _,
    List.sorted_insertionSort dateDesc _, ?_, ?_⟩
  · have hstable := pairwise_insertionSort_stable dateDesc (fun a b => a.id < b.id)
      (db.filter (matchesFilter cat sd ed)) (hids.filter _)
    refine hstable.imp ?_
    intro a b h hkey
    exact h (le_of_eq hkey)
  · rw [heq]
    exact List.length_take_le limit _

/-- Witness for C4 amended: a three-row store (two rows tie on the
date) listed with skip 1, limit 2. -/
theorem list_order_pagination_witness :
    (([⟨1, "a", 10, ⟨2024, 1, 1⟩, some "Food", none⟩,
       ⟨2, "b", 20, ⟨2024, 1, 2⟩, some "Travel", none⟩,
       ⟨3, "c", 5, ⟨2024, 1, 1⟩, some "Food", none⟩] : Store).Pairwise
        (fun a b => a.id < b.id)) ∧
    (read_expenses 1 2 none none none
        [⟨1, "a", 10, ⟨2024, 1, 1⟩, some "Food", none⟩,
         ⟨2, "b", 20, ⟨2024, 1, 2⟩, some "Travel", none⟩,
         ⟨3, "c", 5, ⟨2024, 1, 1⟩, some "Food", none⟩] =
      (((([⟨1, "a", 10, ⟨2024, 1, 1⟩, some "Food", none⟩,
          ⟨2, "b", 20, ⟨2024, 1, 2⟩, some "Travel", none⟩,
          ⟨3, "c", 5, ⟨2024, 1, 1⟩, some "Food", none⟩] : Store).filter
            (matchesFilter none none none)).insertionSort dateDesc).drop 1).take 2 ∧
    List.Perm ((([⟨1, "a", 10, ⟨2024, 1, 1⟩, some "Food", none⟩,
          ⟨2, "b", 20, ⟨2024, 1, 2⟩, some "Travel", none⟩,
          ⟨3, "c", 5, ⟨2024, 1, 1⟩, some "Food", none⟩] : Store).filter
            (matchesFilter none none none)).insertionSort dateDesc)
      (([⟨1, "a", 10, ⟨2024, 1, 1⟩, some "Food", none⟩,
         ⟨2, "b", 20, ⟨2024, 1, 2⟩, some "Travel", none⟩,
         ⟨3, "c", 5, ⟨2024, 1, 1⟩, some "Food", none⟩] : Store).filter
            (matchesFilter none none none)) ∧
    ((([⟨1, "a", 10, ⟨2024, 1, 1⟩, some "Food", none⟩,
        ⟨2, "b", 20, ⟨2024, 1, 2⟩, some "Travel", none⟩,
        ⟨3, "c", 5, ⟨2024, 1, 1⟩, some "Food", none⟩] : Store).filter
          (matchesFilter none none none)).insertionSort dateDesc).Sorted dateDesc ∧
    ((([⟨1, "a", 10, ⟨2024, 1, 1⟩, some "Food", none⟩,
        ⟨2, "b", 20, ⟨2024, 1, 2⟩, some "Travel", none⟩,
        ⟨3, "c", 5, ⟨2024, 1, 1⟩, some "Food", none⟩] : Store).filter
          (matchesFilter none none none)).insertionSort dateDesc).Pairwise
      (fun a b => a.date.key = b.date.key → a.id < b.id) ∧
    (read_expenses 1 2 none none none
        [⟨1, "a", 10, ⟨2024, 1, 1⟩, some "Food", none⟩,
         ⟨2, "b", 20, ⟨2024, 1, 2⟩, some "Travel", none⟩,
         ⟨3, "c", 5, ⟨2024, 1, 1⟩, some "Food", none⟩]).length ≤ 2) :=
  ⟨by with_unfolding_all decide,
   list_order_pagination none none none 1 2 _ (by with_unfolding_all decide)⟩

/-- C5 counterexample: a create request that omits `date` is rejected
by validation (`date` is a required field of `ExpenseCreate`), not
accepted with today's date. -/
theorem create_missing_date_rejected :
    create_expense 1 ⟨some "Lunch", some 10, none, some "Food", none⟩ [] =
      Except.error (ApiError.validationError "field required") := by
  with_unfolding_all decide

/-- C5 amended: for every create request in which the caller does not
specify a date, the create operation REJECTS the request with a
validation error; the ORM column default (`date.today`) is unreachable
through this operation because validation already requires the date. -/
theorem create_requires_date (nextId : Nat) (i : ExpenseCreateInput) (db : Store)
    (h : i.date = none) :
    create_expense nextId i db =
      Except.error (ApiError.validationError "field required") := by
  obtain ⟨t, a, d, c, desc⟩ := i
  cases d with
  | some v => simp at h
  | none =>
      unfold create_expense parseExpenseCreate
      cases t <;> cases a <;> cases c <;> rfl

/-- Witness for C5 amended: a concrete dateless request is rejected. -/
theorem create_requires_date_witness :
    ((⟨some "Coffee", some 3, none, some "Drink", some "morning"⟩ :
        ExpenseCreateInput).date = none) ∧
    create_expense 5 ⟨some "Coffee", some 3, none, some "Drink", some "morning"⟩ [] =
      Except.error (ApiError.validationError "field required") :=
  ⟨rfl, create_requires_date 5 _ [] rfl⟩

/-- C6 counterexample: `if year:` treats a supplied year of `0` as "no
restriction" (Python falsiness), so the monthly summary for `year = 0`
still reports a record dated 2024 instead of excluding every record
dated outside year 0. -/
theorem monthly_summary_year_zero_not_filtered :
    (∀ e ∈ ([⟨1, "a", 10, ⟨2024, 5, 1⟩, some "Food", none⟩] : Store),
      (e.date.year : Int) ≠ 0) ∧
    get_monthly_summary (some 0) [⟨1, "a", 10, ⟨2024, 5, 1⟩, some "Food", none⟩] =
      [(2024, 5, 10)] := by
  constructor
  · with_unfolding_all decide
  · with_unfolding_all decide

/-- C6 amended: for every store and optional NON-ZERO year argument,
the monthly summary groups the (year-restricted, when supplied)
records by the calendar (year, month) of their date, sums `amount` per
group, keeps only records of the supplied year, and returns the groups
sorted descending by (year, month).  (A supplied year of `0` is instead
treated as no restriction.) -/
theorem monthly_summary_grouping (year : Option Int) (db : Store)
    (hy : year ≠ some 0) :
    List.Perm ((get_monthly_summary year db).map (fun g => (g.1, g.2.1)))
      (((yearRestricted year db).map (fun e => (e.date.year, e.date.month))).dedup) ∧
    ((get_monthly_summary year db).map (fun g => (g.1, g.2.1))).Nodup ∧
    (∀ g ∈ get_monthly_summary year db,
      g.2.2 = sumAmount ((yearRestricted year db).filter
        (fun e => e.date.year == g.1 && e.date.month == g.2.1))) ∧
    (∀ g ∈ get_monthly_summary year db, ∀ y, year = some y → (g.1 : Int) = y) ∧
    (get_monthly_summary year db).Sorted ymDesc := by
  have hdef : get_monthly_summary year db =
      (monthlyGroups (yearRestricted year db)).insertionSort ymDesc := by
    cases year with
    | none => rfl
    | some y =>
        have hy0 : ¬ (y = 0) := fun hz => hy (by rw [hz])
        simp only [get_monthly_summary, yearRestricted]
        rw [if_neg hy0]
  have hperm : List.Perm (get_monthly_summary year db)
      (monthlyGroups (yearRestricted year db)) := by
    rw [hdef]
    exact List.perm_insertionSort ymDesc _
  have hkeys : List.Perm ((get_monthly_summary year db).map (fun g => (g.1, g.2.1)))
      (((yearRestricted year db).map (fun e => (e.date.year, e.date.month))).dedup) := by
    have hm := hperm.map (fun g => (g.1, g.2.1))
    rwa [monthlyGroups_map_key] at hm
  refine ⟨hkeys, hkeys.nodup_iff.mpr (List.nodup_dedup _), ?_, ?_, ?_⟩
  · intro g hg
    exact (mem_monthlyGroups (hperm.mem_iff.mp hg)).2
  · intro g hg y hyy
    rcases mem_monthlyGroups (hperm.mem_iff.mp hg) with ⟨hkey, _⟩
    rcases List.mem_map.mp (List.mem_dedup.mp hkey) with ⟨e, he, hpair⟩
    have hpair1 : e.date.year = g.1 := congrArg Prod.fst hpair
    subst hyy
    simp only [yearRestricted] at he
    have hpred := (List.mem_filter.mp he).2
    rw [← hpair1]
    simpa using hpred
  · rw [hdef]
    exact List.sorted_insertionSort ymDesc _

/-- Witness for C6 amended: a concrete store with records in 2024 and
2023, summarised for year 2024. -/
theorem monthly_summary_grouping_witness :
    ((some (2024 : Int)) ≠ some 0) ∧
    (List.Perm ((get_monthly_summary (some 2024)
        [⟨1, "a", 10, ⟨2024, 5, 1⟩, some "Food", none⟩,
         ⟨2, "b", 20, ⟨2023, 5, 1⟩, some "Food", none⟩]).map (fun g => (g.1, g.2.1)))
      (((yearRestricted (some 2024)
        [⟨1, "a", 10, ⟨2024, 5, 1⟩, some "Food", none⟩,
         ⟨2, "b", 20, ⟨2023, 5, 1⟩, some "Food", none⟩]).map
          (fun e => (e.date.year, e.date.month))).dedup) ∧
    ((get_monthly_summary (some 2024)
        [⟨1, "a", 10, ⟨2024, 5, 1⟩, some "Food", none⟩,
         ⟨2, "b", 20, ⟨2023, 5, 1⟩, some "Food", none⟩]).map
          (fun g => (g.1, g.2.1))).Nodup ∧
    (∀ g ∈ get_monthly_summary (some 2024)
        [⟨1, "a", 10, ⟨2024, 5, 1⟩, some "Food", none⟩,
         ⟨2, "b", 20, ⟨2023, 5, 1⟩, some "Food", none⟩],
      g.2.2 = sumAmount ((yearRestricted (some 2024)
        [⟨1, "a", 10, ⟨2024, 5, 1⟩, some "Food", none⟩,
         ⟨2, "b", 20, ⟨2023, 5, 1⟩, some "Food", none⟩]).filter
          (fun e => e.date.year == g.1 && e.date.month == g.2.1))) ∧
    (∀ g ∈ get_monthly_summary (some 2024)
        [⟨1, "a", 10, ⟨2024, 5, 1⟩, some "Food", none⟩,
         ⟨2, "b", 20, ⟨2023, 5, 1⟩, some "Food", none⟩],
      ∀ y, (some (2024 : Int)) = some y → (g.1 : Int) = y) ∧
    (get_monthly_summary (some 2024)
        [⟨1, "a", 10, ⟨2024, 5, 1⟩, some "Food", none⟩,
         ⟨2, "b", 20, ⟨2023, 5, 1⟩, some "Food", none⟩]).Sorted ymDesc) :=
  ⟨by decide, monthly_summary_grouping (some 2024) _ (by decide)⟩

/-- C7: a `start_date` strictly after the `end_date` makes every
filtered operation (list, summary statistics, by-category totals)
return its empty-set result — the empty page, the zero/"None"
statistics, the empty report — and raises no error. -/
theorem conflicting_date_range_empty (sd ed : Date) (h : ed.key < sd.key)
    (cat : Option String) (skip limit : Nat) (db : Store) :
    read_expenses skip limit cat (some sd) (some ed) db = [] ∧
    get_expense_statistics (some sd) (some ed) db = ⟨0, 0, 0, some "None"⟩ ∧
    get_spending_by_category (some sd) (some ed) db = [] := by
  have hnil : ∀ l : List Expense, l.filter (dateInRange (some sd) (some ed)) = [] := by
    intro l
    rw [List.filter_eq_nil_iff]
    intro e _
    simp only [dateInRange, Bool.and_eq_true, decide_eq_true_eq, not_and]
    omega
  refine ⟨?_, ?_, ?_⟩
  · unfold read_expenses
    rw [applyDateFilters_eq, hnil]
    simp
  · unfold get_expense_statistics
    rw [applyDateFilters_eq, hnil]
    rfl
  · unfold get_spending_by_category
    rw [applyDateFilters_eq, hnil]
    rfl

/-- Witness for C7: the range 2024-01-02 .. 2024-01-01 on a nonempty
store. -/
theorem conflicting_date_range_empty_witness :
    ((⟨2024, 1, 1⟩ : Date).key < (⟨2024, 1, 2⟩ : Date).key) ∧
    (read_expenses 0 100 none (some ⟨2024, 1, 2⟩) (some ⟨2024, 1, 1⟩)
        [⟨1, "a", 10, ⟨2024, 1, 1⟩, some "Food", none⟩] = [] ∧
    get_expense_statistics (some ⟨2024, 1, 2⟩) (some ⟨2024, 1, 1⟩)
        [⟨1, "a", 10, ⟨2024, 1, 1⟩, some "Food", none⟩] = ⟨0, 0, 0, some "None"⟩ ∧
    get_spending_by_category (some ⟨2024, 1, 2⟩) (some ⟨2024, 1, 1⟩)
        [⟨1, "a", 10, ⟨2024, 1, 1⟩, some "Food", none⟩] = []) :=
  ⟨by decide, conflicting_date_range_empty ⟨2024, 1, 2⟩ ⟨2024, 1, 1⟩ (by decide) none 0 100 _⟩

/-- C8: for every record present in the store, `update(id, X)` followed
by `get(id)` returns exactly the fields of `X` with the original id
preserved — update replaces every field except `id` (full replacement)
and never changes `id`. -/
theorem update_then_get (eid : Nat) (x : ExpenseCreate) :
    ∀ db : Store, (∃ e ∈ db, e.id = eid) →
      ∃ st : Store,
        update_expense eid x db =
          Except.ok (⟨eid, x.title, x.amount, x.date, some x.category, x.description⟩, st) ∧
        read_expense eid st =
          Except.ok ⟨eid, x.title, x.amount, x.date, some x.category, x.description⟩
  | [], h => by
      simp at h
  | e :: rest, h => by
      by_cases he : e.id = eid
      · refine ⟨setFields x e :: rest, ?_, ?_⟩
        · have hset : setFields x e =
              ⟨eid, x.title, x.amount, x.date, some x.category, x.description⟩ := by
            rw [← he]
            rfl
          unfold update_expense
          rw [if_pos (beq_iff_eq.mpr he), hset]
        · unfold read_expense
          rw [List.find?_cons_of_pos _ (by simp [setFields, he])]
          show Except.ok (setFields x e) = _
          rw [show setFields x e =
              ⟨eid, x.title, x.amount, x.date, some x.category, x.description⟩ by
            rw [← he]
            rfl]
      · have hrest : ∃ w ∈ rest, w.id = eid := by
          rcases h with ⟨w, hw, hwid⟩
          rcases List.mem_cons.mp hw with rfl | hmem
          · exact absurd hwid he
          · exact ⟨w, hmem, hwid⟩
        rcases update_then_get eid x rest hrest with ⟨st, hupd, hread⟩
        refine ⟨e :: st, ?_, ?_⟩
        · unfold update_expense
          rw [if_neg (by simpa using he), hupd]
        · rw [read_expense_cons_ne _ he]
          exact hread

/-- Witness for C8: updating id 2 in a two-row store, then reading it
back. -/
theorem update_then_get_witness :
    (∃ e ∈ ([⟨1, "a", 10, ⟨2024, 1, 1⟩, some "Food", none⟩,
             ⟨2, "b", 20, ⟨2024, 1, 2⟩, some "Travel", none⟩] : Store), e.id = 2) ∧
    ∃ st : Store,
      update_expense 2 ⟨"c", 7, ⟨2024, 2, 3⟩, "Misc", some "note"⟩
          [⟨1, "a", 10, ⟨2024, 1, 1⟩, some "Food", none⟩,
           ⟨2, "b", 20, ⟨2024, 1, 2⟩, some "Travel", none⟩] =
        Except.ok (⟨2, "c", 7, ⟨2024, 2, 3⟩, some "Misc", some "note"⟩, st) ∧
      read_expense 2 st =
        Except.ok ⟨2, "c", 7, ⟨2024, 2, 3⟩, some "Misc", some "note"⟩ :=
  ⟨by with_unfolding_all decide,
   update_then_get 2 ⟨"c", 7, ⟨2024, 2, 3⟩, "Misc", some "note"⟩ _
     (by with_unfolding_all decide)⟩

/-- C9: `get`, `update` and `delete` signal not-found exactly when no
record with the given id exists; and on a store with distinct ids, a
successful `delete(id)` followed by `get(id)` signals not-found. -/
theorem not_found_iff_absent (eid : Nat) (x : ExpenseCreate) (db : Store)
    (hids : (db.map (fun e => e.id)).Nodup) :
    (read_expense eid db = Except.error ApiError.notFound ↔ ∀ e ∈ db, e.id ≠ eid) ∧
    (update_expense eid x db = Except.error ApiError.notFound ↔ ∀ e ∈ db, e.id ≠ eid) ∧
    (delete_expense eid db = Except.error ApiError.notFound ↔ ∀ e ∈ db, e.id ≠ eid) ∧
    (∀ msg st, delete_expense eid db = Except.ok (msg, st) →
      read_expense eid st = Except.error ApiError.notFound) :=
  ⟨read_expense_error_iff eid db, update_expense_error_iff eid x db,
   delete_expense_error_iff eid db, delete_then_get_aux eid db hids⟩

/-- Witness for C9: a two-row store, looking for the absent id 7 and
deleting the present id 1. -/
theorem not_found_iff_absent_witness :
    ((([⟨1, "a", 10, ⟨2024, 1, 1⟩, some "Food", none⟩,
        ⟨2, "b", 20, ⟨2024, 1, 2⟩, some "Travel", none⟩] : Store).map
          (fun e => e.id)).Nodup) ∧
    ((read_expense 7 [⟨1, "a", 10, ⟨2024, 1, 1⟩, some "Food", none⟩,
        ⟨2, "b", 20, ⟨2024, 1, 2⟩, some "Travel", none⟩] =
          Except.error ApiError.notFound ↔
      ∀ e ∈ ([⟨1, "a", 10, ⟨2024, 1, 1⟩, some "Food", none⟩,
              ⟨2, "b", 20, ⟨2024, 1, 2⟩, some "Travel", none⟩] : Store), e.id ≠ 7) ∧
    (update_expense 7 ⟨"c", 7, ⟨2024, 2, 3⟩, "Misc", none⟩
        [⟨1, "a", 10, ⟨2024, 1, 1⟩, some "Food", none⟩,
         ⟨2, "b", 20, ⟨2024, 1, 2⟩, some "Travel", none⟩] =
          Except.error ApiError.notFound ↔
      ∀ e ∈ ([⟨1, "a", 10, ⟨2024, 1, 1⟩, some "Food", none⟩,
              ⟨2, "b", 20, ⟨2024, 1, 2⟩, some "Travel", none⟩] : Store), e.id ≠ 7) ∧
    (delete_expense 7 [⟨1, "a", 10, ⟨2024, 1, 1⟩, some "Food", none⟩,
        ⟨2, "b", 20, ⟨2024, 1, 2⟩, some "Travel", none⟩] =
          Except.error ApiError.notFound ↔
      ∀ e ∈ ([⟨1, "a", 10, ⟨2024, 1, 1⟩, some "Food", none⟩,
              ⟨2, "b", 20, ⟨2024, 1, 2⟩, some "Travel", none⟩] : Store), e.id ≠ 7) ∧
    (∀ msg st, delete_expense 7 [⟨1, "a", 10, ⟨2024, 1, 1⟩, some "Food", none⟩,
        ⟨2, "b", 20, ⟨2024, 1, 2⟩, some "Travel", none⟩] = Except.ok (msg, st) →
      read_expense 7 st = Except.error ApiError.notFound)) :=
  ⟨by with_unfolding_all decide,
   not_found_iff_absent 7 ⟨"c", 7, ⟨2024, 2, 3⟩, "Misc", none⟩ _
     (by with_unfolding_all decide)⟩

/-- C10: in the list operation an empty-string category filter behaves
exactly as an absent category constraint (Python falsiness skips the
clause): for every store, skip/limit and date range the results agree. -/
theorem empty_category_filter_ignored (skip limit : Nat) (sd ed : Option Date)
    (db : Store) :
    read_expenses skip limit (some "") sd ed db =
      read_expenses skip limit none sd ed db := by
  simp [read_expenses, applyCategoryFilter]

end ExpenseTracker
